import Mathlib

/-!
Verification of the laser-beam geometry engine of taisei.

The C sources under verification are `src/util/geometry.c` and
`src/lasers/laser.c` (with the motion-rule families from
`src/lasers/rules.c`).  C `float`/`double` arithmetic is embedded as exact
real arithmetic over `ℝ`; C `cmplx` values are Mathlib's `ℂ`.  Assertions
(`assert` / `assume`) are embedded by making the enclosing function return
`Option`, with `none` meaning "an assertion fired".
-/

open scoped Classical

noncomputable section

/-! ## Complex-arithmetic helpers (util/miscmath.h)

These model the tiny complex helpers that `geometry.c` and `laser.c` use.
They are not under `src/`, but their semantics is standard:
`cdot`/`ccross` are the 2-D dot and cross product of complex numbers viewed
as vectors, `cswap` swaps the real and imaginary parts, `cabs2` is the
squared magnitude, `clerp`/`lerpf` are linear interpolation, and
`cnormalize z = z / |z|`. -/

/-- Dot product of two complex numbers viewed as 2-D vectors. -/
def cdot (a b : ℂ) : ℝ := a.re * b.re + a.im * b.im

/-- Cross product (z-component) of two complex numbers viewed as 2-D vectors. -/
def ccross (a b : ℂ) : ℝ := a.re * b.im - a.im * b.re

/-- Swap the real and imaginary components. -/
def cswap (z : ℂ) : ℂ := ⟨z.im, z.re⟩

/-- Complex conjugate, written out componentwise. -/
def cconj (z : ℂ) : ℂ := ⟨z.re, -z.im⟩

/-- Squared magnitude `|z|²`. -/
def cabs2 (z : ℂ) : ℝ := z.re * z.re + z.im * z.im

/-- Magnitude `|z|` (C `cabs`). -/
def cabs (z : ℂ) : ℝ := Real.sqrt (cabs2 z)

/-- Normalize a complex number to unit length (C `cnormalize`). -/
def cnormalize (z : ℂ) : ℂ := z / (cabs z : ℝ)

/-- Linear interpolation between complex numbers (C `clerp`). -/
def clerp (a b : ℂ) (t : ℝ) : ℂ := a + (t : ℂ) * (b - a)

/-- Linear interpolation between reals (C `lerpf`). -/
def lerpf (a b t : ℝ) : ℝ := a + t * (b - a)

theorem cabs2_eq_zero_iff (z : ℂ) : cabs2 z = 0 ↔ z = 0 := by
  constructor
  · intro h
    have h1 : z.re * z.re + z.im * z.im = 0 := h
    have hre : z.re = 0 := by nlinarith [sq_nonneg z.re, sq_nonneg z.im]
    have him : z.im = 0 := by nlinarith [sq_nonneg z.re, sq_nonneg z.im]
    exact Complex.ext hre him
  · intro h; subst h; simp [cabs2]

theorem cabs2_pos_of_ne_zero {z : ℂ} (h : z ≠ 0) : 0 < cabs2 z := by
  have hnn : 0 ≤ cabs2 z := by
    have := sq_nonneg z.re
    have := sq_nonneg z.im
    simp only [cabs2]
    nlinarith
  rcases lt_or_eq_of_le hnn with h' | h'
  · exact h'
  · exact absurd ((cabs2_eq_zero_iff z).mp h'.symm) h

/-! ## Geometry primitives (util/geometry.c) -/

/-- A line segment between two points (C `LineSegment`). -/
structure LineSegment where
  a : ℂ
  b : ℂ

/-- A pair of endpoint-associated reals (the `.a`/`.b` pairs of C
`LaserSegment` and `UnevenCapsule`). -/
structure PairF where
  a : ℝ
  b : ℝ

/-- A capsule with possibly different radii at its two endpoints
(C `UnevenCapsule`). -/
structure UnevenCapsule where
  pos : LineSegment
  radius : PairF

/-- An axis-aligned rectangle given by two corners (C `Rect`). -/
structure Rect where
  top_left : ℂ
  bottom_right : ℂ

/-- Whether a point lies in a rectangle, borders included
(`point_in_rect`, geometry.c). -/
def point_in_rect (p : ℂ) (r : Rect) : Prop :=
  p.re ≥ r.top_left.re ∧ p.re ≤ r.bottom_right.re ∧
  p.im ≥ r.top_left.im ∧ p.im ≤ r.bottom_right.im

/-- Implementation helper of `lineseg_closest_factor` (geometry.c):
`m` is the vector from A to B, `v` the vector from the point of interest
to A. -/
def lineseg_closest_factor_impl (m v : ℂ) : ℝ :=
  let lm2 := cabs2 m
  if lm2 = 0 then 0
  else
    let f := -(Complex.re (v * cconj m)) / lm2
    max 0 (min f 1)

/-- Factor `f` such that `a + f (b - a)` is the point of the segment closest
to `p` (`lineseg_closest_factor`, geometry.c). -/
def lineseg_closest_factor (seg : LineSegment) (p : ℂ) : ℝ :=
  lineseg_closest_factor_impl (seg.b - seg.a) (seg.a - p)

/-- Signed distance from a point to an uneven capsule
(`ucapsule_dist_from_point`, geometry.c).  Precondition asserted by the C
code: `radius.b ≥ radius.a`. -/
def ucapsule_dist_from_point (p₀ : ℂ) (ucap : UnevenCapsule) : ℝ :=
  let p := p₀ - ucap.pos.a
  let pb := ucap.pos.b - ucap.pos.a
  let h := cabs2 pb
  let q : ℂ := ⟨cdot p (cconj (cswap pb)) / h, cdot p pb / h⟩
  let q : ℂ := ⟨|q.re|, q.im⟩
  let b := ucap.radius.a - ucap.radius.b
  let c : ℂ := ⟨Real.sqrt (h - b * b), b⟩
  let k := ccross c q
  let m := cdot c q
  let n := cabs2 q
  if k < 0 then Real.sqrt (h * n) - ucap.radius.a
  else if k > c.re then Real.sqrt (h * (n + 1 - 2 * q.im)) - ucap.radius.b
  else m - ucap.radius.a

/-- Segment-segment intersection test (`lineseg_lineseg_intersection`,
geometry.c), with the output point dropped. -/
def lineseg_lineseg_intersection (seg0 seg1 : LineSegment) : Prop :=
  let s1x := seg0.b.re - seg0.a.re
  let s1y := seg0.b.im - seg0.a.im
  let s2x := seg1.b.re - seg1.a.re
  let s2y := seg1.b.im - seg1.a.im
  let d := -s2x * s1y + s1x * s2y
  if d = 0 then False
  else
    let s := (-s1y * (seg0.a.re - seg1.a.re) + s1x * (seg0.a.im - seg1.a.im)) / d
    if s < 0 ∨ s > 1 then False
    else
      let t := (s2x * (seg0.a.im - seg1.a.im) - s2y * (seg0.a.re - seg1.a.re)) / d
      if t < 0 ∨ t > 1 then False
      else True

/-! ## C1: capsule distance at the midpoint, perpendicular offset -/

theorem cdot_cconj_cswap (z u : ℂ) : cdot z (cconj (cswap u)) = ccross z u := by
  simp only [cdot, ccross, cconj, cswap]
  ring

/-- C1: for an uneven capsule whose two radii both equal `r` and whose axis is
a nondegenerate segment from `A` to `B`, the signed distance of a point placed
at the exact midpoint of the segment, offset by `d` along a unit normal `nv`,
is `|d| - r`.  Hence the distance is `0` when the point is exactly `r` away,
negative when closer, and positive when farther. -/
theorem c1_ucapsule_midpoint_perp (A B nv : ℂ) (d r : ℝ)
    (hAB : A ≠ B) (hperp : cdot nv (B - A) = 0) (hunit : cabs2 nv = 1) :
    ucapsule_dist_from_point ((A + B) / 2 + (d : ℂ) * nv) ⟨⟨A, B⟩, ⟨r, r⟩⟩
      = |d| - r ∧
    (|d| = r →
      ucapsule_dist_from_point ((A + B) / 2 + (d : ℂ) * nv) ⟨⟨A, B⟩, ⟨r, r⟩⟩ = 0) ∧
    (|d| < r →
      ucapsule_dist_from_point ((A + B) / 2 + (d : ℂ) * nv) ⟨⟨A, B⟩, ⟨r, r⟩⟩ < 0) ∧
    (r < |d| →
      0 < ucapsule_dist_from_point ((A + B) / 2 + (d : ℂ) * nv) ⟨⟨A, B⟩, ⟨r, r⟩⟩) := by
  have hu : B - A ≠ 0 := sub_ne_zero.mpr (Ne.symm hAB)
  have hh : 0 < cabs2 (B - A) := cabs2_pos_of_ne_zero hu
  have hperp' : nv.re * (B - A).re + nv.im * (B - A).im = 0 := hperp
  have hunit' : nv.re * nv.re + nv.im * nv.im = 1 := hunit
  -- component computations for the relative point p = (B-A)/2 + d•nv
  have hpre : ((A + B) / 2 + (d : ℂ) * nv - A).re = (B - A).re / 2 + d * nv.re := by
    have hp : (A + B) / 2 + (d : ℂ) * nv - A = (B - A) / 2 + (d : ℂ) * nv := by ring
    rw [hp]; simp [Complex.div_re, Complex.add_re, Complex.mul_re, Complex.normSq]
  have hpim : ((A + B) / 2 + (d : ℂ) * nv - A).im = (B - A).im / 2 + d * nv.im := by
    have hp : (A + B) / 2 + (d : ℂ) * nv - A = (B - A) / 2 + (d : ℂ) * nv := by ring
    rw [hp]; simp [Complex.div_im, Complex.add_im, Complex.mul_im, Complex.normSq]
  have hdot : cdot ((A + B) / 2 + (d : ℂ) * nv - A) (B - A) = cabs2 (B - A) / 2 := by
    simp only [cdot, cabs2, hpre, hpim]
    linear_combination d * hperp'
  have hcross : ccross ((A + B) / 2 + (d : ℂ) * nv - A) (B - A)
      = d * ccross nv (B - A) := by
    simp only [ccross, hpre, hpim]
    ring
  have hs2 : ccross nv (B - A) * ccross nv (B - A) = cabs2 (B - A) := by
    simp only [ccross, cabs2]
    linear_combination ((B - A).re * (B - A).re + (B - A).im * (B - A).im) * hunit'
      - (nv.re * (B - A).re + nv.im * (B - A).im) * hperp'
  have key : ucapsule_dist_from_point ((A + B) / 2 + (d : ℂ) * nv) ⟨⟨A, B⟩, ⟨r, r⟩⟩
      = |d| - r := by
    unfold ucapsule_dist_from_point
    simp only [cdot_cconj_cswap]
    rw [hcross, hdot, sub_self r]
    generalize hS : ccross nv (B - A) = S at hs2
    generalize hQg : cabs2 (B - A) = Q at hs2 hh ⊢
    have hQ0 : Q ≠ 0 := ne_of_gt hh
    have hqim : Q / 2 / Q = 1 / 2 := by field_simp; ring
    have hsq : Real.sqrt Q * Real.sqrt Q = Q := Real.mul_self_sqrt (le_of_lt hh)
    have hsp : 0 < Real.sqrt Q := Real.sqrt_pos.mpr hh
    have habsS : |S| = Real.sqrt Q := by
      have h1 : Real.sqrt (S ^ 2) = |S| := Real.sqrt_sq_eq_abs S
      rw [← h1]; congr 1; nlinarith [hs2]
    simp only [mul_zero, sub_zero, hqim]
    have hk : ccross ⟨Real.sqrt Q, (0 : ℝ)⟩ (⟨|d * S / Q|, 1 / 2⟩ : ℂ)
        = Real.sqrt Q / 2 := by
      simp only [ccross]; ring
    have hm : cdot ⟨Real.sqrt Q, (0 : ℝ)⟩ (⟨|d * S / Q|, 1 / 2⟩ : ℂ)
        = Real.sqrt Q * |d * S / Q| := by
      simp only [cdot]; ring
    rw [hk, hm]
    rw [if_neg (not_lt.mpr (by positivity)), if_neg (not_lt.mpr (by nlinarith [hsp]))]
    have habs : |d * S / Q| = |d| * Real.sqrt Q / Q := by
      rw [abs_div, abs_mul, habsS, abs_of_pos hh]
    rw [habs]
    have hfin : Real.sqrt Q * (|d| * Real.sqrt Q / Q) = |d| := by
      field_simp
      linear_combination |d| * hsq
    rw [hfin]
  refine ⟨key, ?_, ?_, ?_⟩
  · intro hEq; rw [key, hEq]; ring
  · intro hlt; rw [key]; linarith
  · intro hgt; rw [key]; linarith

/-! ## Laser data model (lasers/laser.c, lasers/rules.c) -/

/-- A pair of endpoint-associated complex positions. -/
structure PairC where
  a : ℂ
  b : ℂ

/-- A tapered-capsule segment of a quantized laser (C `LaserSegment`):
endpoints, endpoint widths, endpoint times. -/
structure LaserSegment where
  pos : PairC
  width : PairF
  time : PairF

/-- An axis-aligned bounding box with complex corners (C `LaserBBox`). -/
structure LaserBBox where
  top_left : ℂ
  bottom_right : ℂ

/-- A motion rule: a pure function of the laser's origin and a curve time,
yielding a position (the closed-form families of lasers/rules.c). -/
def LaserRule : Type := ℂ → ℝ → ℂ

/-- The linear motion family (`laser_rule_linear_impl`, rules.c). -/
def laser_rule_linear (velocity : ℂ) : LaserRule :=
  fun pos t => pos + (t : ℂ) * velocity

/-- The accelerated motion family (`laser_rule_accelerated_impl`, rules.c);
the constructor stores `half_accel = accel * 0.5`. -/
def laser_rule_accelerated (velocity accel : ℂ) : LaserRule :=
  fun pos t => pos + (t : ℂ) * (velocity + (t : ℂ) * (accel * 0.5))

/-- The laser state relevant to the geometry engine (C `Laser`).  The
`bbox`/`segments` fields model `_internal.bbox` and the laser's range of the
shared segment buffer. -/
structure Laser where
  pos : ℂ
  timespan : ℝ
  deathtime : ℝ
  timeshift : ℝ
  speed : ℝ
  width : ℝ
  width_exponent : ℝ
  birthtime : ℤ
  next_graze : ℤ
  collision_active : Bool
  rule : LaserRule
  bbox : LaserBBox
  segments : List LaserSegment

/-- Evaluate the laser's motion rule at curve time `t` (`laser_pos_at`). -/
def laser_pos_at (l : Laser) (t : ℝ) : ℂ := l.rule l.pos t

/-! ## Width model (`calc_width_params` / `calc_sample_width`, laser.c) -/

/-- Precomputed width-model parameters (C `LaserWidthParams`). -/
structure LaserWidthParams where
  midpoint : ℝ
  tail : ℝ
  tail_factor : ℝ
  exponent : ℝ
  scale : ℝ

/-- Precompute the width-model parameters (`calc_width_params`, laser.c). -/
def calc_width_params (l : Laser) : LaserWidthParams :=
  ⟨l.timespan * 0.5, l.timespan * 0.625,
   -1 / (l.timespan * 0.625 * (l.timespan * 0.625)),
   l.width_exponent, 0.75 * l.width⟩

/-- Half-width of the ribbon at local curve time `t`
(`calc_sample_width`, laser.c). -/
def calc_sample_width (wp : LaserWidthParams) (t : ℝ) : ℝ :=
  let mid_ofs := t - wp.midpoint
  let w := wp.tail_factor * (mid_ofs - wp.tail) * (mid_ofs + wp.tail)
  let w := if wp.exponent ≠ 1 then Real.rpow w wp.exponent else w
  wp.scale * w

/-- Swap the two endpoints of a segment together with their times and widths
(`laserseg_flip`, laser.c). -/
def laserseg_flip (s : LaserSegment) : LaserSegment :=
  ⟨⟨s.pos.b, s.pos.a⟩, ⟨s.width.b, s.width.a⟩, ⟨s.time.b, s.time.a⟩⟩

/-- Append a segment to the shared buffer, canonicalizing it so that the
larger width sits at the `b` endpoint, and fold its extent into the running
bounding box (`add_segment`, laser.c).  Returns the stored segment and the
updated bounding box. -/
def add_segment (bbox : LaserBBox) (cseg : LaserSegment) : LaserSegment × LaserBBox :=
  let seg := if cseg.width.b < cseg.width.a then laserseg_flip cseg else cseg
  let xa := cseg.pos.a.re
  let ya := cseg.pos.a.im
  let xb := cseg.pos.b.re
  let yb := cseg.pos.b.im
  (seg,
   ⟨⟨min bbox.top_left.re (min xa xb), min bbox.top_left.im (min ya yb)⟩,
    ⟨max bbox.bottom_right.re (max xa xb), max bbox.bottom_right.im (max ya yb)⟩⟩)

/-! ## Charge envelope (`laser_charge`, laser.c) -/

/-- The charge/decay envelope update (`laser_charge`, laser.c): computes the
new live width from the tick counter `t`, the charge delay and the target
width, and gates `collision_active` on the live width exceeding 60% of the
target. -/
def laser_charge (l : Laser) (t : ℤ) (charge width : ℝ) : Laser :=
  let tf : ℝ := (t : ℝ)
  let new_width :=
    if tf < charge - 10 then min 2 (2 * tf / min 30 (charge - 10))
    else if tf ≥ charge - 10 ∧ tf < l.deathtime - 20 then
      min width (1.7 + width / 20 * (tf - charge + 10))
    else if tf ≥ l.deathtime - 20 then
      max 0 (width - width / 20 * (tf - l.deathtime + 20))
    else width
  ⟨l.pos, l.timespan, l.deathtime, l.timeshift, l.speed, new_width,
   l.width_exponent, l.birthtime, l.next_graze,
   decide (new_width > width * 0.6), l.rule, l.bbox, l.segments⟩

/-! ## Collision capsule (`laser_collision`, laser.c) -/

/-- The hit capsule that `laser_collision` builds for one segment: the
collision radius at each endpoint is `max(width * 0.5 - 4, 2)`. -/
def collision_capsule (lseg : LaserSegment) : UnevenCapsule :=
  ⟨⟨lseg.pos.a, lseg.pos.b⟩,
   ⟨max (lseg.width.a * 0.5 - 4) 2, max (lseg.width.b * 0.5 - 4) 2⟩⟩

/-! ## Claim theorems: C3, C4, C5, C7, C10 -/

/-- A concrete laser with the default width 10, exponent 1 and timespan 4
(the parameters `create_laser` and `create_laserline_ab` set up). -/
def laser_example : Laser :=
  ⟨0, 4, 100, 0, 1, 10, 1, 0, 0, true, laser_rule_linear 1, ⟨0, 0⟩, []⟩

/-- C3 counterexample: for a laser with exponent 1, timespan 4 > 0 and
width 10, the half-width at local time `t = 0` is `27/10`, not `0`.  The
falloff parabola vanishes at `midpoint ± 0.625 * timespan`, which lies
outside `[0, timespan]`. -/
theorem c3_width_at_zero_counterexample :
    calc_sample_width (calc_width_params laser_example) 0 = 27 / 10 ∧
    (27 / 10 : ℝ) ≠ 0 := by
  constructor
  · simp only [calc_sample_width, calc_width_params, laser_example]
    norm_num
  · norm_num

/-- C3 amended: for every laser with exponent 1 and positive timespan, the
half-width at `t = 0` and at `t = timespan` equals `0.27 * width` (namely
`scale * 9/25` with `scale = 0.75 * width`), not `0`. -/
theorem c3_width_at_ends (l : Laser) (he : l.width_exponent = 1)
    (ht : 0 < l.timespan) :
    calc_sample_width (calc_width_params l) 0 = 27 / 100 * l.width ∧
    calc_sample_width (calc_width_params l) l.timespan = 27 / 100 * l.width := by
  have hT : l.timespan ≠ 0 := ne_of_gt ht
  have hX : l.timespan * 0.625 ≠ 0 := mul_ne_zero hT (by norm_num)
  constructor <;>
  · simp only [calc_sample_width, calc_width_params, he]
    rw [if_neg (by norm_num : ¬ ((1 : ℝ) ≠ 1))]
    field_simp
    ring

/-- Witness for C3's amended statement at the concrete example laser. -/
theorem c3_width_at_ends_witness :
    calc_sample_width (calc_width_params laser_example) 0
      = 27 / 100 * laser_example.width ∧
    calc_sample_width (calc_width_params laser_example) laser_example.timespan
      = 27 / 100 * laser_example.width :=
  c3_width_at_ends laser_example rfl (by norm_num [laser_example])

/-- C4: for every laser with exponent 1 and positive timespan, the half-width
at the curve midpoint `t = timespan / 2` equals `0.75` times the laser's
current width. -/
theorem c4_width_at_midpoint (l : Laser) (he : l.width_exponent = 1)
    (ht : 0 < l.timespan) :
    calc_sample_width (calc_width_params l) (l.timespan / 2) = 0.75 * l.width := by
  have hT : l.timespan ≠ 0 := ne_of_gt ht
  have hX : l.timespan * 0.625 ≠ 0 := mul_ne_zero hT (by norm_num)
  simp only [calc_sample_width, calc_width_params, he]
  rw [if_neg (by norm_num : ¬ ((1 : ℝ) ≠ 1))]
  have h1 : l.timespan / 2 - l.timespan * 0.5 = 0 := by ring
  rw [h1]
  field_simp

/-- Witness for C4 at the concrete example laser. -/
theorem c4_width_at_midpoint_witness :
    calc_sample_width (calc_width_params laser_example) (laser_example.timespan / 2)
      = 0.75 * laser_example.width :=
  c4_width_at_midpoint laser_example rfl (by norm_num [laser_example])

/-- C5: the segment stored by `add_segment` always satisfies
`width.a ≤ width.b`; a candidate with the larger width at `a` is flipped,
swapping endpoints, times and widths together. -/
theorem c5_add_segment_width_invariant (bbox : LaserBBox) (cseg : LaserSegment) :
    (add_segment bbox cseg).1.width.a ≤ (add_segment bbox cseg).1.width.b := by
  simp only [add_segment]
  by_cases h : cseg.width.b < cseg.width.a
  · rw [if_pos h]
    exact le_of_lt h
  · rw [if_neg h]
    exact not_lt.mp h

/-- C7: after `laser_charge l t charge width`, the laser's `collision_active`
flag is true exactly when the newly computed live width exceeds 60% of the
target width. -/
theorem c7_laser_charge_collision_active (l : Laser) (t : ℤ) (charge width : ℝ) :
    (laser_charge l t charge width).collision_active = true ↔
    width * 0.6 < (laser_charge l t charge width).width := by
  simp only [laser_charge]
  simp [decide_eq_true_eq, gt_iff_lt]

/-- C10: the hit capsule of every segment in `laser_collision` has, at each
endpoint, radius `max(width * 0.5 - 4, 2)` — four units smaller than the
rendered half-width, but never below 2; a zero-width segment still presents
a radius-2 capsule. -/
theorem c10_collision_capsule_radii (lseg : LaserSegment) :
    (collision_capsule lseg).radius.a = max (lseg.width.a * 0.5 - 4) 2 ∧
    (collision_capsule lseg).radius.b = max (lseg.width.b * 0.5 - 4) 2 ∧
    2 ≤ (collision_capsule lseg).radius.a ∧
    2 ≤ (collision_capsule lseg).radius.b ∧
    (collision_capsule ⟨lseg.pos, ⟨0, 0⟩, lseg.time⟩).radius.a = 2 ∧
    (collision_capsule ⟨lseg.pos, ⟨0, 0⟩, lseg.time⟩).radius.b = 2 := by
  refine ⟨rfl, rfl, le_max_right _ _, le_max_right _ _, ?_, ?_⟩ <;>
  · simp only [collision_capsule]
    norm_num

/-! ## Sampler (`laser_prepare_sampling_params` / `fill_samples`, laser.c) -/

/-- Sampling parameters (C `LaserSamplingParams`). -/
structure LaserSamplingParams where
  num_samples : ℕ
  time_shift : ℝ
  time_step : ℝ

/-- A (position, curve-time) sample (C `LaserSample`). -/
structure LaserSample where
  p : ℂ
  t : ℝ

/-- The sampling loop of `fill_samples` (laser.c): starting from time `t`,
append a sample per iteration unless its position equals the previously
appended one, advancing time by `dt` clamped to `maxtime`. -/
def fill_samples_loop (l : Laser) (dt maxtime : ℝ) :
    ℕ → ℝ → LaserSample → List LaserSample
  | 0, _, _ => []
  | n + 1, t, prev =>
    let p := laser_pos_at l t
    if prev.p ≠ p then
      ⟨p, t⟩ :: fill_samples_loop l dt maxtime n (min (t + dt) maxtime) ⟨p, t⟩
    else
      fill_samples_loop l dt maxtime n (min (t + dt) maxtime) prev

/-- Overwrite the time of the last sample (the final
`dynarray_get_ptr(array, num_elements - 1)->t = maxtime` of `fill_samples`). -/
def set_last_time : List LaserSample → ℝ → List LaserSample
  | [], _ => []
  | [s], T => [⟨s.p, T⟩]
  | s :: s2 :: rest, T => s :: set_last_time (s2 :: rest) T

/-- Produce the deduplicated sample sequence for one laser
(`fill_samples`, laser.c). -/
def fill_samples (sp : LaserSamplingParams) (l : Laser) : List LaserSample :=
  let t0 := sp.time_shift
  let maxtime := sp.time_shift + l.timespan
  let s0 : LaserSample := ⟨laser_pos_at l t0, t0⟩
  set_last_time
    (s0 :: fill_samples_loop l sp.time_step maxtime (sp.num_samples - 1) (t0 + sp.time_step) s0)
    maxtime

/-- Compute the visible curve-time window (`laser_prepare_sampling_params`,
laser.c); `none` models the `false` return ("nothing to draw"). -/
def laser_prepare_sampling_params (l : Laser) (frames : ℤ) (step : ℝ) :
    Option LaserSamplingParams :=
  let c := l.timespan
  let t := ((frames - l.birthtime : ℤ) : ℝ) * l.speed - l.timespan + l.timeshift
  let c := if t + l.timespan > l.deathtime + l.timeshift then
    c + (l.deathtime + l.timeshift - (t + l.timespan)) else c
  let c' := if t < 0 then c + t else c
  let t' := if t < 0 then 0 else t
  if c' ≤ 0 then none
  else
    let ns := (⌈(c' + step) / step⌉).toNat
    some ⟨ns, t', (c' + step) / (ns : ℝ)⟩

/-! ## Quantizer (`segment_is_visible` / `construct_segments` /
`quantize_laser`, laser.c) -/

/-- A rectangle in x/y/width/height form (C `FloatRect`). -/
structure FloatRect where
  x : ℝ
  y : ℝ
  w : ℝ
  h : ℝ

/-- Visibility culling test for one segment against the (inflated) viewport
rectangle (`segment_is_visible`, laser.c). -/
def segment_is_visible (a b : ℂ) (bounds : FloatRect) : Bool :=
  let xa := a.re
  let ya := a.im
  let xb := b.re
  let yb := b.im
  let left := bounds.x
  let right := left + bounds.w
  let top := bounds.y
  let bottom := top + bounds.h
  if xa ≥ left ∧ xa ≤ right ∧ ya ≥ top ∧ ya ≤ bottom then true
  else if xb ≥ left ∧ xb ≤ right ∧ yb ≥ top ∧ yb ≤ bottom then true
  else if xa < left ∧ xb < left then false
  else if xa > right ∧ xb > right then false
  else if ya < top ∧ yb < top then false
  else if ya > bottom ∧ yb > bottom then false
  else if xa ≥ left ∧ xa ≤ right ∧ xb ≥ left ∧ xb ≤ right then true
  else
    let m := (a.im - b.im) / (a.re - b.re)
    let c := a.im - m * a.re
    let y0 := m * left + c
    let y1 := m * right + c
    decide (max y0 y1 ≥ top ∧ min y0 y1 ≤ bottom)

/-- Loop state of `construct_segments` (laser.c): segments and bounding box
accumulated so far, the time/position/width of the last included sample, and
the direction vector of the last included segment. -/
structure CsState where
  segs : List LaserSegment
  bbox : LaserBBox
  t0 : ℝ
  a : ℂ
  w0 : ℝ
  v0 : ℂ

/-- The sample-skip decision of `construct_segments` (laser.c): `some true`
means the sample is treated as collinear and skipped, `some false` means a
segment is emitted, `none` means one of the `assert(norm2 != 0)` assertions
fired. -/
def cs_skip_check (sp : LaserSamplingParams) (st : CsState) (s : LaserSample)
    (rest : List LaserSample) : Option Bool :=
  if rest ≠ [] ∧ s.t - st.t0 < (sp.num_samples : ℝ) / 16 then
    let v1 := s.p - st.a
    let dot := cdot st.v0 v1
    let norm2 := cabs2 st.v0 * cabs2 v1
    if norm2 = 0 then none
    else
      let d := 1 - |dot / Real.sqrt norm2|
      if d < 1 / 10000 then
        match rest with
        | [] => some false
        | s2 :: _ =>
          let v2 := s2.p - s.p
          let dot2 := cdot v1 v2
          let norm2b := cabs2 v1 * cabs2 v2
          if norm2b = 0 then none
          else
            let d2 := 1 - |dot2 / Real.sqrt norm2b|
            if d2 < 1 / 10000 then some true else some false
      else some false
  else some false

/-- The main loop of `construct_segments` (laser.c), walking the samples
after the first.  Returns `none` when a zero-length assertion fires. -/
def cs_loop (sp : LaserSamplingParams) (wp : LaserWidthParams) (vb : FloatRect) :
    List LaserSample → CsState → Option (List LaserSegment × LaserBBox)
  | [], st => some (st.segs, st.bbox)
  | s :: rest, st =>
    match cs_skip_check sp st s rest with
    | none => none
    | some true => cs_loop sp wp vb rest st
    | some false =>
      let b := s.p
      let w := calc_sample_width wp (s.t - sp.time_shift)
      let sb :=
        if segment_is_visible st.a b vb then
          let r := add_segment st.bbox
            ⟨⟨st.a, b⟩, ⟨st.w0, w⟩, ⟨sp.time_shift - st.t0, sp.time_shift - s.t⟩⟩
          (st.segs ++ [r.1], r.2)
        else (st.segs, st.bbox)
      let v0 := b - st.a
      if cabs2 v0 = 0 then none
      else cs_loop sp wp vb rest ⟨sb.1, sb.2, s.t, b, w, v0⟩

/-- Convert the sample sequence into simplified, culled segments
(`construct_segments`, laser.c); requires at least two samples.  `none`
models a fired `assert(norm2 != 0)` / `assume(v0_abs2 != 0)`. -/
def construct_segments (sp : LaserSamplingParams) (wp : LaserWidthParams)
    (vb : FloatRect) (bbox0 : LaserBBox) :
    List LaserSample → Option (List LaserSegment × LaserBBox)
  | s0 :: s1 :: rest =>
    let v0 := s0.p - s1.p
    if cabs2 v0 = 0 then none
    else cs_loop sp wp vb (s1 :: rest)
      ⟨[], bbox0, s0.t, s0.p, calc_sample_width wp 0, v0⟩
  | _ => none

/-- Rebuild one laser's segment list and bounding box for this frame
(`quantize_laser`, laser.c).  The viewport rectangle and the constant
`LASER_SDF_RANGE` are passed as parameters. -/
def quantize_laser (l : Laser) (frames : ℤ) (viewport : FloatRect)
    (sdf_range : ℝ) : Option (List LaserSegment × LaserBBox) :=
  match laser_prepare_sampling_params l frames (1 / 2) with
  | none => some ([], ⟨0, 0⟩)
  | some sp =>
    let viewmargin := sdf_range + l.width * 0.5
    let vb : FloatRect := ⟨viewport.x - viewmargin, viewport.y - viewmargin,
      viewport.w + viewmargin * 2, viewport.h + viewmargin * 2⟩
    let wp := calc_width_params l
    match fill_samples sp l with
    | [] => none
    | s0 :: rest =>
      let bbox0 : LaserBBox := ⟨s0.p, s0.p⟩
      let result :=
        if rest = [] then
          if segment_is_visible s0.p s0.p vb then
            let w := calc_sample_width wp (s0.t - sp.time_shift)
            let t := sp.time_shift - s0.t
            let r := add_segment bbox0 ⟨⟨s0.p, s0.p⟩, ⟨w, w⟩, ⟨t, t⟩⟩
            some ([r.1], r.2)
          else some ([], bbox0)
        else construct_segments sp wp vb bbox0 (s0 :: rest)
      match result with
      | none => none
      | some (segs, bbox) =>
        let margin := sdf_range + l.width * 0.5
        some (segs,
          ⟨bbox.top_left - (margin : ℂ) * (1 + Complex.I),
           bbox.bottom_right + (margin : ℂ) * (1 + Complex.I)⟩)

/-! ## C6: sample deduplication and the zero-length assertions -/

theorem fill_samples_loop_chain (l : Laser) (dt maxtime : ℝ) :
    ∀ (n : ℕ) (t : ℝ) (prev : LaserSample),
      List.Chain (fun s1 s2 => s1.p ≠ s2.p) prev (fill_samples_loop l dt maxtime n t prev) := by
  intro n
  induction n with
  | zero => intro t prev; exact List.Chain.nil
  | succ n ih =>
    intro t prev
    simp only [fill_samples_loop]
    by_cases h : prev.p ≠ laser_pos_at l t
    · rw [if_pos h]
      exact List.Chain.cons h (ih _ _)
    · rw [if_neg h]
      exact ih _ _

theorem set_last_time_map_p (T : ℝ) :
    ∀ xs : List LaserSample,
      (set_last_time xs T).map (fun s => s.p) = xs.map (fun s => s.p) := by
  intro xs
  induction xs with
  | nil => rfl
  | cons s rest ih =>
    cases rest with
    | nil => rfl
    | cons s2 rest2 =>
      simp only [set_last_time, List.map_cons]
      rw [show (set_last_time (s2 :: rest2) T).map (fun s => s.p)
            = (s2 :: rest2).map (fun s => s.p) from ih]
      simp

/-- C6 (amended): the sample sequence produced by `fill_samples` never
contains two consecutive samples with equal positions; consequently the
initial squared direction length `v0_abs2` of `construct_segments` (between
the first two samples) is nonzero.  (The later `norm2` values can still
vanish — see the counterexample.) -/
theorem c6_fill_samples_dedup (sp : LaserSamplingParams) (l : Laser) :
    List.Chain' (fun s1 s2 => s1.p ≠ s2.p) (fill_samples sp l) ∧
    ∀ s0 s1 rest, fill_samples sp l = s0 :: s1 :: rest →
      cabs2 (s0.p - s1.p) ≠ 0 := by
  have hchain : List.Chain' (fun s1 s2 => s1.p ≠ s2.p) (fill_samples sp l) := by
    unfold fill_samples
    have h1 : List.Chain' (fun s1 s2 : LaserSample => s1.p ≠ s2.p)
        (⟨laser_pos_at l sp.time_shift, sp.time_shift⟩ ::
          fill_samples_loop l sp.time_step (sp.time_shift + l.timespan)
            (sp.num_samples - 1) (sp.time_shift + sp.time_step)
            ⟨laser_pos_at l sp.time_shift, sp.time_shift⟩) :=
      fill_samples_loop_chain l sp.time_step (sp.time_shift + l.timespan)
        (sp.num_samples - 1) (sp.time_shift + sp.time_step)
        ⟨laser_pos_at l sp.time_shift, sp.time_shift⟩
    have h2 : List.Chain' (fun a b : ℂ => a ≠ b)
        ((⟨laser_pos_at l sp.time_shift, sp.time_shift⟩ ::
          fill_samples_loop l sp.time_step (sp.time_shift + l.timespan)
            (sp.num_samples - 1) (sp.time_shift + sp.time_step)
            ⟨laser_pos_at l sp.time_shift, sp.time_shift⟩).map (fun s => s.p)) :=
      (List.chain'_map (fun s : LaserSample => s.p)).mpr h1
    rw [← set_last_time_map_p (sp.time_shift + l.timespan)] at h2
    exact (List.chain'_map (fun s : LaserSample => s.p)).mp h2
  refine ⟨hchain, ?_⟩
  intro s0 s1 rest heq
  rw [heq] at hchain
  have hne : s0.p ≠ s1.p := (List.chain'_cons.mp hchain).1
  intro hz
  exact hne (by
    have := (cabs2_eq_zero_iff (s0.p - s1.p)).mp hz
    have := sub_eq_zero.mp this
    exact this)

theorem norm2_ne_zero {x y : ℂ} (hx : x ≠ 0) (hy : y ≠ 0) :
    cabs2 x * cabs2 y ≠ 0 :=
  mul_ne_zero (ne_of_gt (cabs2_pos_of_ne_zero hx)) (ne_of_gt (cabs2_pos_of_ne_zero hy))

/-- For two nonzero vectors on the real axis, the angular measure
`1 - |cos θ|` computed by `construct_segments` is exactly `0`. -/
theorem d_zero_real_axis (x y : ℂ) (hx : x.im = 0) (hy : y.im = 0)
    (hx0 : x ≠ 0) (hy0 : y ≠ 0) :
    1 - |cdot x y / Real.sqrt (cabs2 x * cabs2 y)| = 0 := by
  have hxre : x.re ≠ 0 := by
    intro h; exact hx0 (Complex.ext h hx)
  have hyre : y.re ≠ 0 := by
    intro h; exact hy0 (Complex.ext h hy)
  simp only [cdot, cabs2, hx, hy, mul_zero, add_zero]
  have h1 : x.re * x.re * (y.re * y.re) = (x.re * y.re) ^ 2 := by ring
  rw [h1, Real.sqrt_sq_eq_abs, abs_div, abs_abs]
  rw [div_self (abs_ne_zero.mpr (mul_ne_zero hxre hyre))]
  norm_num

/-- Evaluation rule of `cs_loop`: a sample whose turn and lookahead turn both
measure collinear (below the angular threshold) within the temporal cap is
skipped. -/
theorem cs_loop_skip (sp : LaserSamplingParams) (wp : LaserWidthParams) (vb : FloatRect)
    (s s2 : LaserSample) (rest : List LaserSample) (st : CsState)
    (htemp : s.t - st.t0 < (sp.num_samples : ℝ) / 16)
    (hv0 : st.v0 ≠ 0) (hv0im : st.v0.im = 0)
    (hv1 : s.p - st.a ≠ 0) (hv1im : (s.p - st.a).im = 0)
    (hv2 : s2.p - s.p ≠ 0) (hv2im : (s2.p - s.p).im = 0) :
    cs_loop sp wp vb (s :: s2 :: rest) st = cs_loop sp wp vb (s2 :: rest) st := by
  have hchk : cs_skip_check sp st s (s2 :: rest) = some true := by
    simp only [cs_skip_check]
    rw [if_pos ⟨List.cons_ne_nil _ _, htemp⟩]
    rw [if_neg (norm2_ne_zero hv0 hv1)]
    rw [d_zero_real_axis st.v0 (s.p - st.a) hv0im hv1im hv0 hv1]
    rw [if_pos (by norm_num : (0:ℝ) < 1 / 10000)]
    rw [if_neg (norm2_ne_zero hv1 hv2)]
    rw [d_zero_real_axis (s.p - st.a) (s2.p - s.p) hv1im hv2im hv1 hv2]
    rw [if_pos (by norm_num : (0:ℝ) < 1 / 10000)]
  simp only [cs_loop]
  rw [hchk]

/-- Evaluation rule of `cs_loop`: when a sample is emitted (here, because the
temporal cap is reached) and the new direction vector from the last included
point is zero, the `assume(v0_abs2 != 0)` assertion fires. -/
theorem cs_loop_emit_none (sp : LaserSamplingParams) (wp : LaserWidthParams) (vb : FloatRect)
    (s : LaserSample) (rest : List LaserSample) (st : CsState)
    (htemp : ¬ (rest ≠ [] ∧ s.t - st.t0 < (sp.num_samples : ℝ) / 16))
    (hz : cabs2 (s.p - st.a) = 0) :
    cs_loop sp wp vb (s :: rest) st = none := by
  have hchk : cs_skip_check sp st s rest = some false := by
    simp only [cs_skip_check]
    rw [if_neg htemp]
  simp only [cs_loop]
  rw [hchk]
  simp only []
  rw [if_pos hz]

/-- Evaluation rule of `cs_loop`: emitting a visible, nonzero-length segment
appends it and advances the loop state. -/
theorem cs_loop_emit_vis (sp : LaserSamplingParams) (wp : LaserWidthParams) (vb : FloatRect)
    (s : LaserSample) (rest : List LaserSample) (st : CsState)
    (htemp : ¬ (rest ≠ [] ∧ s.t - st.t0 < (sp.num_samples : ℝ) / 16))
    (hnz : ¬ cabs2 (s.p - st.a) = 0)
    (hvis : segment_is_visible st.a s.p vb = true) :
    cs_loop sp wp vb (s :: rest) st =
      cs_loop sp wp vb rest
        ⟨st.segs ++ [(add_segment st.bbox
            ⟨⟨st.a, s.p⟩, ⟨st.w0, calc_sample_width wp (s.t - sp.time_shift)⟩,
             ⟨sp.time_shift - st.t0, sp.time_shift - s.t⟩⟩).1],
          (add_segment st.bbox
            ⟨⟨st.a, s.p⟩, ⟨st.w0, calc_sample_width wp (s.t - sp.time_shift)⟩,
             ⟨sp.time_shift - st.t0, sp.time_shift - s.t⟩⟩).2,
          s.t, s.p, calc_sample_width wp (s.t - sp.time_shift), s.p - st.a⟩ := by
  have hchk : cs_skip_check sp st s rest = some false := by
    simp only [cs_skip_check]
    rw [if_neg htemp]
  simp only [cs_loop]
  rw [hchk]
  simp only []
  rw [if_pos hvis, if_neg hnz]

/-- A laser moving back and forth along the real axis: accelerated rule with
velocity 12 and acceleration -8, so `position(t) = 12 t - 4 t²` (a parabola
peaking between samples at `t = 1.5`). -/
def laser_c6_cx : Laser :=
  ⟨0, 3, 100, 0, 1, 10, 1, 0, 0, true, laser_rule_accelerated 12 (-8), ⟨0, 0⟩, []⟩

/-- Sampling parameters for the C6 counterexample: 9 samples at step 1/2
(the temporal cap `num_samples / 16` then exceeds the sample spacing, so
single samples may be skipped). -/
def sp_c6_cx : LaserSamplingParams := ⟨9, 0, 1/2⟩

/-- A viewport rectangle comfortably containing the counterexample curve. -/
def vb_big : FloatRect := ⟨-1000, -1000, 2000, 2000⟩

theorem fill_c6_eval : fill_samples sp_c6_cx laser_c6_cx =
    [⟨0, 0⟩, ⟨5, 1/2⟩, ⟨8, 1⟩, ⟨9, 3/2⟩, ⟨8, 2⟩, ⟨5, 5/2⟩, ⟨0, 3⟩] := by
  norm_num [fill_samples, fill_samples_loop, set_last_time, laser_pos_at,
    laser_rule_accelerated, laser_c6_cx, sp_c6_cx, Complex.ext_iff]

/-- C6 counterexample: for the back-and-forth laser above, the sample
sequence produced by `fill_samples` (whose consecutive positions are all
distinct) still drives `construct_segments` into a zero squared length: the
simplifier skips the peak sample `⟨9, 3/2⟩` as collinear, and the next
emitted candidate returns exactly to the last included position `8`, firing
`assume(v0_abs2 != 0)` (modelled by the `none` result). -/
theorem c6_zero_length_counterexample :
    construct_segments sp_c6_cx (calc_width_params laser_c6_cx) vb_big ⟨0, 0⟩
      (fill_samples sp_c6_cx laser_c6_cx) = none := by
  rw [fill_c6_eval]
  simp only [construct_segments]
  rw [if_neg (by norm_num [cabs2, Complex.ext_iff] :
    ¬ cabs2 ((⟨0, 0⟩ : LaserSample).p - (⟨5, 1/2⟩ : LaserSample).p) = 0)]
  rw [cs_loop_skip _ _ _ _ _ _ _
    (by norm_num [sp_c6_cx])
    (by norm_num [Complex.ext_iff]) (by simp)
    (by norm_num [Complex.ext_iff]) (by simp)
    (by norm_num [Complex.ext_iff]) (by simp)]
  rw [cs_loop_emit_vis _ _ _ _ _ _
    (by norm_num [sp_c6_cx])
    (by norm_num [cabs2, Complex.ext_iff])
    (by norm_num [segment_is_visible, vb_big])]
  rw [cs_loop_skip _ _ _ _ _ _ _
    (by norm_num [sp_c6_cx])
    (by norm_num [Complex.ext_iff]) (by simp)
    (by norm_num [Complex.ext_iff]) (by simp)
    (by norm_num [Complex.ext_iff]) (by simp)]
  rw [cs_loop_emit_none _ _ _ _ _ _
    (by norm_num [sp_c6_cx])
    (by norm_num [cabs2, Complex.ext_iff])]

/-- A straight laser used as a witness instance: linear rule with velocity 1,
timespan 1, sampled twice. -/
def laser_lin_example : Laser :=
  ⟨0, 1, 100, 0, 1, 10, 1, 0, 0, true, laser_rule_linear 1, ⟨0, 0⟩, []⟩

/-- Sampling parameters pairing with `laser_lin_example`. -/
def sp_lin_example : LaserSamplingParams := ⟨2, 0, 1⟩

theorem fill_lin_eval : fill_samples sp_lin_example laser_lin_example
    = [⟨0, 0⟩, ⟨1, 1⟩] := by
  norm_num [fill_samples, fill_samples_loop, set_last_time, laser_pos_at,
    laser_rule_linear, laser_lin_example, sp_lin_example, Complex.ext_iff]

/-- Witness for C6's amended statement at a concrete laser and sampling set. -/
theorem c6_fill_samples_dedup_witness :
    List.Chain' (fun s1 s2 : LaserSample => s1.p ≠ s2.p)
      (fill_samples sp_lin_example laser_lin_example) ∧
    cabs2 ((⟨0, 0⟩ : LaserSample).p - (⟨1, 1⟩ : LaserSample).p) ≠ 0 :=
  ⟨(c6_fill_samples_dedup sp_lin_example laser_lin_example).1,
   (c6_fill_samples_dedup sp_lin_example laser_lin_example).2 ⟨0, 0⟩ ⟨1, 1⟩ [] fill_lin_eval⟩

/-- Witness for C1 at a concrete capsule: the segment from `0` to `100` with
both radii `2`, probed `5` above the midpoint. -/
theorem c1_ucapsule_midpoint_perp_witness :
    ucapsule_dist_from_point (((0 : ℂ) + 100) / 2 + ((5 : ℝ) : ℂ) * Complex.I)
      ⟨⟨0, 100⟩, ⟨2, 2⟩⟩ = |(5 : ℝ)| - 2 := by
  have h := c1_ucapsule_midpoint_perp 0 100 Complex.I 5 2
    (by norm_num)
    (by simp [cdot, Complex.I_re, Complex.I_im])
    (by simp [cabs2, Complex.I_re, Complex.I_im])
  exact h.1

/-! ## C9: quantization of a fully off-screen laser -/

theorem segment_is_visible_false_left (a b : ℂ) (vb : FloatRect)
    (ha : a.re < vb.x) (hb : b.re < vb.x) :
    segment_is_visible a b vb = false := by
  simp only [segment_is_visible]
  rw [if_neg (fun h => absurd h.1 (not_le.mpr ha)),
      if_neg (fun h => absurd h.1 (not_le.mpr hb)),
      if_pos ⟨ha, hb⟩]

theorem segment_is_visible_false_right (a b : ℂ) (vb : FloatRect)
    (ha : a.re > vb.x + vb.w) (hb : b.re > vb.x + vb.w) :
    segment_is_visible a b vb = false := by
  simp only [segment_is_visible]
  rw [if_neg (fun h => absurd h.2.1 (not_le.mpr ha)),
      if_neg (fun h => absurd h.2.1 (not_le.mpr hb))]
  by_cases hc3 : a.re < vb.x ∧ b.re < vb.x
  · rw [if_pos hc3]
  · rw [if_neg hc3, if_pos ⟨ha, hb⟩]

theorem segment_is_visible_false_top (a b : ℂ) (vb : FloatRect)
    (ha : a.im < vb.y) (hb : b.im < vb.y) :
    segment_is_visible a b vb = false := by
  simp only [segment_is_visible]
  rw [if_neg (fun h => absurd h.2.2.1 (not_le.mpr ha)),
      if_neg (fun h => absurd h.2.2.1 (not_le.mpr hb))]
  by_cases hc3 : a.re < vb.x ∧ b.re < vb.x
  · rw [if_pos hc3]
  · rw [if_neg hc3]
    by_cases hc4 : a.re > vb.x + vb.w ∧ b.re > vb.x + vb.w
    · rw [if_pos hc4]
    · rw [if_neg hc4, if_pos ⟨ha, hb⟩]

theorem segment_is_visible_false_bottom (a b : ℂ) (vb : FloatRect)
    (ha : a.im > vb.y + vb.h) (hb : b.im > vb.y + vb.h) :
    segment_is_visible a b vb = false := by
  simp only [segment_is_visible]
  rw [if_neg (fun h => absurd h.2.2.2 (not_le.mpr ha)),
      if_neg (fun h => absurd h.2.2.2 (not_le.mpr hb))]
  by_cases hc3 : a.re < vb.x ∧ b.re < vb.x
  · rw [if_pos hc3]
  · rw [if_neg hc3]
    by_cases hc4 : a.re > vb.x + vb.w ∧ b.re > vb.x + vb.w
    · rw [if_pos hc4]
    · rw [if_neg hc4]
      by_cases hc5 : a.im < vb.y ∧ b.im < vb.y
      · rw [if_pos hc5]
      · rw [if_neg hc5, if_pos ⟨ha, hb⟩]

theorem cs_loop_invisible (sp : LaserSamplingParams) (wp : LaserWidthParams) (vb : FloatRect)
    (P : ℂ → Prop) (hP : ∀ x y, P x → P y → segment_is_visible x y vb = false) :
    ∀ (samples : List LaserSample) (st : CsState),
      (∀ s ∈ samples, P s.p) → P st.a →
      ∀ segs bbox, cs_loop sp wp vb samples st = some (segs, bbox) →
        segs = st.segs ∧ bbox = st.bbox := by
  intro samples
  induction samples with
  | nil =>
    intro st _ _ segs bbox h
    simp only [cs_loop, Option.some.injEq, Prod.mk.injEq] at h
    exact ⟨h.1.symm, h.2.symm⟩
  | cons s rest ih =>
    intro st hall ha segs bbox h
    simp only [cs_loop] at h
    rcases hcs : cs_skip_check sp st s rest with _ | b
    · rw [hcs] at h; exact absurd h (by simp)
    · rw [hcs] at h
      cases b with
      | true =>
        exact ih st (fun x hx => hall x (List.mem_cons_of_mem _ hx)) ha segs bbox h
      | false =>
        rw [hP st.a s.p ha (hall s (List.mem_cons_self _ _))] at h
        simp only [Bool.false_eq_true, if_false] at h
        by_cases hz : cabs2 (s.p - st.a) = 0
        · rw [if_pos hz] at h; exact absurd h (by simp)
        · rw [if_neg hz] at h
          have := ih _ (fun x hx => hall x (List.mem_cons_of_mem _ hx))
            (hall s (List.mem_cons_self _ _)) segs bbox h
          exact this

theorem cs_loop_left (sp : LaserSamplingParams) (wp : LaserWidthParams) (vb : FloatRect) :
    ∀ (samples : List LaserSample) (st : CsState),
      (∀ s ∈ samples, s.p.re < vb.x) → st.a.re < vb.x →
      ∀ segs bbox, cs_loop sp wp vb samples st = some (segs, bbox) →
        segs = st.segs ∧ bbox = st.bbox := by
  intro samples
  induction samples with
  | nil =>
    intro st _ _ segs bbox h
    simp only [cs_loop, Option.some.injEq, Prod.mk.injEq] at h
    exact ⟨h.1.symm, h.2.symm⟩
  | cons s rest ih =>
    intro st hall ha segs bbox h
    simp only [cs_loop] at h
    rcases hcs : cs_skip_check sp st s rest with _ | b
    · rw [hcs] at h; exact absurd h (by simp)
    · rw [hcs] at h
      cases b with
      | true =>
        exact ih st (fun x hx => hall x (List.mem_cons_of_mem _ hx)) ha segs bbox h
      | false =>
        rw [segment_is_visible_false_left st.a s.p vb ha
          (hall s (List.mem_cons_self _ _))] at h
        simp only [Bool.false_eq_true, if_false] at h
        by_cases hz : cabs2 (s.p - st.a) = 0
        · rw [if_pos hz] at h; exact absurd h (by simp)
        · rw [if_neg hz] at h
          have := ih _ (fun x hx => hall x (List.mem_cons_of_mem _ hx))
            (hall s (List.mem_cons_self _ _)) segs bbox h
          exact this

/-- C9: a laser whose samples all lie beyond the same edge (left, right, top
or bottom) of the viewport rectangle inflated by `sdf_range + width/2` stores
zero segments; its bounding box, however, is not collapsed: `quantize_laser`
unconditionally pads the degenerate first-sample box by that margin on every
side. -/
theorem c9_quantize_outside (l : Laser) (frames : ℤ) (vp : FloatRect) (sdf_range : ℝ)
    (sp : LaserSamplingParams)
    (hsp : laser_prepare_sampling_params l frames (1/2) = some sp)
    (hout :
      (∀ s ∈ fill_samples sp l, s.p.re < vp.x - (sdf_range + l.width * 0.5)) ∨
      (∀ s ∈ fill_samples sp l, s.p.re > vp.x + vp.w + (sdf_range + l.width * 0.5)) ∨
      (∀ s ∈ fill_samples sp l, s.p.im < vp.y - (sdf_range + l.width * 0.5)) ∨
      (∀ s ∈ fill_samples sp l, s.p.im > vp.y + vp.h + (sdf_range + l.width * 0.5))) :
    ∀ segs bbox, quantize_laser l frames vp sdf_range = some (segs, bbox) →
      segs = [] ∧
      ∃ s0 ss, fill_samples sp l = s0 :: ss ∧
        bbox = ⟨s0.p - ((sdf_range + l.width * 0.5 : ℝ) : ℂ) * (1 + Complex.I),
                s0.p + ((sdf_range + l.width * 0.5 : ℝ) : ℂ) * (1 + Complex.I)⟩ := by
  obtain ⟨P, hPvis, hPall⟩ :
      ∃ P : ℂ → Prop,
        (∀ x y, P x → P y → segment_is_visible x y
            ⟨vp.x - (sdf_range + l.width * 0.5), vp.y - (sdf_range + l.width * 0.5),
             vp.w + (sdf_range + l.width * 0.5) * 2, vp.h + (sdf_range + l.width * 0.5) * 2⟩
          = false) ∧
        ∀ s ∈ fill_samples sp l, P s.p := by
    rcases hout with h | h | h | h
    · exact ⟨fun z => z.re < vp.x - (sdf_range + l.width * 0.5),
        fun x y hx hy => segment_is_visible_false_left x y _ hx hy, h⟩
    · exact ⟨fun z => z.re > vp.x + vp.w + (sdf_range + l.width * 0.5),
        fun x y hx hy => segment_is_visible_false_right x y _
          (show x.re > vp.x - (sdf_range + l.width * 0.5)
              + (vp.w + (sdf_range + l.width * 0.5) * 2) by linarith)
          (show y.re > vp.x - (sdf_range + l.width * 0.5)
              + (vp.w + (sdf_range + l.width * 0.5) * 2) by linarith), h⟩
    · exact ⟨fun z => z.im < vp.y - (sdf_range + l.width * 0.5),
        fun x y hx hy => segment_is_visible_false_top x y _ hx hy, h⟩
    · exact ⟨fun z => z.im > vp.y + vp.h + (sdf_range + l.width * 0.5),
        fun x y hx hy => segment_is_visible_false_bottom x y _
          (show x.im > vp.y - (sdf_range + l.width * 0.5)
              + (vp.h + (sdf_range + l.width * 0.5) * 2) by linarith)
          (show y.im > vp.y - (sdf_range + l.width * 0.5)
              + (vp.h + (sdf_range + l.width * 0.5) * 2) by linarith), h⟩
  intro segs bbox h
  unfold quantize_laser at h
  rw [hsp] at h
  dsimp only [] at h
  rcases hfs : fill_samples sp l with _ | ⟨s0, rest⟩
  · rw [hfs] at h
    exact absurd h (by simp)
  · rw [hfs] at h
    dsimp only [] at h
    have hP0 : P s0.p := hPall s0 (by rw [hfs]; exact List.mem_cons_self _ _)
    rcases hrest : rest with _ | ⟨s1, rest1⟩
    · -- single-sample branch
      subst hrest
      rw [if_pos rfl] at h
      rw [hPvis s0.p s0.p hP0 hP0] at h
      simp only [Bool.false_eq_true, if_false, Option.some.injEq, Prod.mk.injEq] at h
      exact ⟨h.1.symm, s0, [], rfl, h.2.symm⟩
    · -- construct_segments branch
      subst hrest
      rw [if_neg (by simp : ¬ (s1 :: rest1 : List LaserSample) = [])] at h
      unfold construct_segments at h
      dsimp only [] at h
      by_cases hz : cabs2 (s0.p - s1.p) = 0
      · rw [if_pos hz] at h
        exact absurd h (by simp)
      · rw [if_neg hz] at h
        rcases hcl : cs_loop sp (calc_width_params l)
            ⟨vp.x - (sdf_range + l.width * 0.5), vp.y - (sdf_range + l.width * 0.5),
             vp.w + (sdf_range + l.width * 0.5) * 2, vp.h + (sdf_range + l.width * 0.5) * 2⟩
            (s1 :: rest1)
            ⟨[], ⟨s0.p, s0.p⟩, s0.t, s0.p, calc_sample_width (calc_width_params l) 0,
             s0.p - s1.p⟩ with _ | ⟨segs1, bbox1⟩
        · rw [hcl] at h
          exact absurd h (by simp)
        · rw [hcl] at h
          have hinv := cs_loop_invisible sp (calc_width_params l) _ P hPvis (s1 :: rest1) _
            (fun x hx => hPall x (by rw [hfs]; exact List.mem_cons_of_mem _ hx))
            hP0 segs1 bbox1 hcl
          simp only [Option.some.injEq, Prod.mk.injEq] at h
          refine ⟨by rw [← h.1, hinv.1], s0, s1 :: rest1, rfl, ?_⟩
          rw [← h.2, hinv.2]

theorem cs_loop_emit_invis (sp : LaserSamplingParams) (wp : LaserWidthParams) (vb : FloatRect)
    (s : LaserSample) (rest : List LaserSample) (st : CsState)
    (htemp : ¬ (rest ≠ [] ∧ s.t - st.t0 < (sp.num_samples : ℝ) / 16))
    (hnz : ¬ cabs2 (s.p - st.a) = 0)
    (hvis : segment_is_visible st.a s.p vb = false) :
    cs_loop sp wp vb (s :: rest) st =
      cs_loop sp wp vb rest
        ⟨st.segs, st.bbox, s.t, s.p,
         calc_sample_width wp (s.t - sp.time_shift), s.p - st.a⟩ := by
  have hchk : cs_skip_check sp st s rest = some false := by
    simp only [cs_skip_check]
    rw [if_neg htemp]
  simp only [cs_loop]
  rw [hchk]
  simp only [hvis, Bool.false_eq_true, if_false]
  rw [if_neg hnz]

def laser_c9_cx : Laser :=
  ⟨-10000, 1, 100, 0, 1, 10, 1, 0, 0, true, laser_rule_linear 2, ⟨0, 0⟩, []⟩

def vp_c9 : FloatRect := ⟨0, 0, 480, 560⟩

theorem prepare_c9_eval :
    laser_prepare_sampling_params laser_c9_cx 4 (1/2) = some ⟨3, 3, 1/2⟩ := by
  norm_num [laser_prepare_sampling_params, laser_c9_cx]
  refine ⟨rfl, ?_⟩
  rw [show Int.toNat 3 = 3 from rfl]
  norm_num

theorem fill_c9_eval : fill_samples ⟨3, 3, 1/2⟩ laser_c9_cx =
    [⟨-9994, 3⟩, ⟨-9993, 7/2⟩, ⟨-9992, 4⟩] := by
  norm_num [fill_samples, fill_samples_loop, set_last_time, laser_pos_at,
    laser_rule_linear, laser_c9_cx, Complex.ext_iff]

theorem quantize_c9_eval :
    quantize_laser laser_c9_cx 4 vp_c9 4 =
      some ([], ⟨(-9994 : ℂ) - 9 * (1 + Complex.I), (-9994 : ℂ) + 9 * (1 + Complex.I)⟩) := by
  unfold quantize_laser
  rw [prepare_c9_eval]
  dsimp only []
  simp only [show laser_c9_cx.width = 10 from rfl]
  rw [fill_c9_eval]
  dsimp only []
  rw [if_neg (by simp : ¬ ([⟨-9993, 7/2⟩, ⟨-9992, 4⟩] : List LaserSample) = [])]
  unfold construct_segments
  dsimp only []
  rw [if_neg (by norm_num [cabs2, Complex.ext_iff] :
    ¬ cabs2 ((⟨-9994, 3⟩ : LaserSample).p - (⟨-9993, 7/2⟩ : LaserSample).p) = 0)]
  rw [cs_loop_emit_invis _ _ _ _ _ _
    (by norm_num)
    (by norm_num [cabs2, Complex.ext_iff])
    (segment_is_visible_false_left _ _ _ (by norm_num [vp_c9]) (by norm_num [vp_c9]))]
  rw [cs_loop_emit_invis _ _ _ _ _ _
    (by norm_num)
    (by norm_num [cabs2, Complex.ext_iff])
    (segment_is_visible_false_left _ _ _ (by norm_num [vp_c9]) (by norm_num [vp_c9]))]
  simp only [cs_loop]
  norm_num [Complex.ext_iff]

theorem c9_bbox_counterexample :
    quantize_laser laser_c9_cx 4 vp_c9 4 =
      some ([], ⟨(-9994 : ℂ) - 9 * (1 + Complex.I), (-9994 : ℂ) + 9 * (1 + Complex.I)⟩) ∧
    ((-9994 : ℂ) - 9 * (1 + Complex.I)) ≠ ((-9994 : ℂ) + 9 * (1 + Complex.I)) :=
  ⟨quantize_c9_eval, by norm_num [Complex.ext_iff]⟩

theorem c9_quantize_outside_witness :
    ([] : List LaserSegment) = [] ∧
    ∃ s0 ss, fill_samples ⟨3, 3, 1/2⟩ laser_c9_cx = s0 :: ss ∧
      (⟨(-9994 : ℂ) - 9 * (1 + Complex.I), (-9994 : ℂ) + 9 * (1 + Complex.I)⟩ : LaserBBox)
        = ⟨s0.p - ((4 + laser_c9_cx.width * 0.5 : ℝ) : ℂ) * (1 + Complex.I),
           s0.p + ((4 + laser_c9_cx.width * 0.5 : ℝ) : ℂ) * (1 + Complex.I)⟩ :=
  c9_quantize_outside laser_c9_cx 4 vp_c9 4 ⟨3, 3, 1/2⟩ prepare_c9_eval
    (Or.inl (by
      rw [fill_c9_eval]
      intro s hs
      simp only [List.mem_cons, List.not_mem_nil, or_false] at hs
      rcases hs with h | h | h <;> subst h <;> norm_num [vp_c9, laser_c9_cx]))
    [] ⟨(-9994 : ℂ) - 9 * (1 + Complex.I), (-9994 : ℂ) + 9 * (1 + Complex.I)⟩
    quantize_c9_eval

/-! ## C8: collision pass and the graze cooldown -/

/-- The player state that `laser_collision` consumes. -/
structure Player where
  pos : ℂ
  velocity : ℂ

/-- Outcome of one `laser_collision` pass: whether the player was hit, the
graze event location handed to `player_graze` (if any), and the laser with
its possibly-updated `next_graze` cooldown. -/
structure CollisionOut where
  hit : Bool
  graze_event : Option ℂ
  laser : Laser

/-- The per-segment loop of `laser_collision` (laser.c): swept-path test,
uneven-capsule distance test, and nearest-miss (graze) tracking. -/
def laser_collision_loop (plrpos : ℂ) (moved : Prop) (motion : LineSegment)
    (graze : Prop) : List LaserSegment → ℝ → ℂ → Bool × ℝ × ℂ
  | [], gd, gp => (false, gd, gp)
  | lseg :: rest, gd, gp =>
    let s : LineSegment := ⟨lseg.pos.a, lseg.pos.b⟩
    if moved ∧ lineseg_lineseg_intersection motion s then (true, gd, gp)
    else
      let c := collision_capsule lseg
      let d := ucapsule_dist_from_point plrpos c
      if d < 0 then (true, gd, gp)
      else
        let gdgp :=
          if graze ∧ d < gd then
            let f := lineseg_closest_factor s plrpos
            let gpos := clerp s.a s.b f
            let v := cnormalize (plrpos - gpos)
            (d, gpos + ((0.5 : ℝ) : ℂ) * ((lerpf lseg.width.a lseg.width.b f : ℝ) : ℂ) * v)
          else (gd, gp)
        laser_collision_loop plrpos moved motion graze rest gdgp.1 gdgp.2

/-- One collision/graze pass for one laser against the player
(`laser_collision`, laser.c).  `hit = true` models the `return true` paths;
`graze_event = some pos` models the `player_graze` invocation, which also
sets `next_graze` to `frames + 4`. -/
def laser_collision (l : Laser) (plr : Player) (frames : ℤ) : CollisionOut :=
  if l.collision_active = true then
    if l.segments.length < 1 then ⟨false, none, l⟩
    else
      let graze := frames ≥ l.next_graze
      let bbox : Rect :=
        if graze then
          ⟨l.bbox.top_left - ((42 : ℝ) : ℂ) * (1 + Complex.I),
           l.bbox.bottom_right + ((42 : ℝ) : ℂ) * (1 + Complex.I)⟩
        else ⟨l.bbox.top_left, l.bbox.bottom_right⟩
      if point_in_rect plr.pos bbox then
        let moved := plr.velocity ≠ 0
        let motion : LineSegment := ⟨plr.pos - plr.velocity, plr.pos⟩
        let r := laser_collision_loop plr.pos moved motion graze l.segments 42 0
        if r.1 = true then ⟨true, none, l⟩
        else if r.2.1 < 42 then
          ⟨false, some r.2.2,
           ⟨l.pos, l.timespan, l.deathtime, l.timeshift, l.speed, l.width,
            l.width_exponent, l.birthtime, frames + 4, l.collision_active,
            l.rule, l.bbox, l.segments⟩⟩
        else ⟨false, none, l⟩
      else ⟨false, none, l⟩
  else ⟨false, none, l⟩

theorem laser_collision_loop_no_graze (plrpos : ℂ) (moved : Prop)
    (motion : LineSegment) (graze : Prop) (hg : ¬ graze) :
    ∀ (segs : List LaserSegment) (gd : ℝ) (gp : ℂ),
      (laser_collision_loop plrpos moved motion graze segs gd gp).2.1 = gd := by
  intro segs
  induction segs with
  | nil => intro gd gp; rfl
  | cons lseg rest ih =>
    intro gd gp
    simp only [laser_collision_loop]
    by_cases h1 : moved ∧ lineseg_lineseg_intersection motion ⟨lseg.pos.a, lseg.pos.b⟩
    · rw [if_pos h1]
    · rw [if_neg h1]
      by_cases h2 : ucapsule_dist_from_point plrpos (collision_capsule lseg) < 0
      · rw [if_pos h2]
      · rw [if_neg h2]
        rw [if_neg (fun hc => hg hc.1)]
        exact ih gd gp

/-- C8: if a graze event fires for a laser during the collision pass at
frame `F`, the laser's `next_graze` cooldown is set to `F + 4`; and for any
laser state carrying that cooldown, no graze event can fire at any frame
before `F + 4` (the earliest next graze is at frame `F + 4`). -/
theorem c8_graze_cooldown (l : Laser) (p : Player) (F : ℤ) :
    ((laser_collision l p F).graze_event.isSome = true →
      (laser_collision l p F).laser.next_graze = F + 4) ∧
    (∀ (l2 : Laser) (p2 : Player) (F2 : ℤ),
      l2.next_graze = F + 4 → F2 < F + 4 →
      (laser_collision l2 p2 F2).graze_event = none) := by
  constructor
  · intro hsome
    unfold laser_collision at hsome ⊢
    by_cases h1 : l.collision_active = true
    · rw [if_pos h1] at hsome ⊢
      by_cases h2 : l.segments.length < 1
      · rw [if_pos h2] at hsome; exact absurd hsome (by simp)
      · rw [if_neg h2] at hsome ⊢
        dsimp only [] at hsome ⊢
        by_cases h3 : point_in_rect p.pos
            (if F ≥ l.next_graze then
              (⟨l.bbox.top_left - ((42 : ℝ) : ℂ) * (1 + Complex.I),
                l.bbox.bottom_right + ((42 : ℝ) : ℂ) * (1 + Complex.I)⟩ : Rect)
             else ⟨l.bbox.top_left, l.bbox.bottom_right⟩)
        · rw [if_pos h3] at hsome ⊢
          by_cases h4 : (laser_collision_loop p.pos (p.velocity ≠ 0)
              ⟨p.pos - p.velocity, p.pos⟩ (F ≥ l.next_graze) l.segments 42 0).1 = true
          · rw [if_pos h4] at hsome; exact absurd hsome (by simp)
          · rw [if_neg h4] at hsome ⊢
            by_cases h5 : (laser_collision_loop p.pos (p.velocity ≠ 0)
                ⟨p.pos - p.velocity, p.pos⟩ (F ≥ l.next_graze) l.segments 42 0).2.1 < 42
            · rw [if_pos h5]
            · rw [if_neg h5] at hsome; exact absurd hsome (by simp)
        · rw [if_neg h3] at hsome; exact absurd hsome (by simp)
    · rw [if_neg h1] at hsome; exact absurd hsome (by simp)
  · intro l2 p2 F2 hng hlt
    have hg : ¬ (F2 ≥ l2.next_graze) := by
      rw [hng]; exact not_le.mpr hlt
    unfold laser_collision
    by_cases h1 : l2.collision_active = true
    · rw [if_pos h1]
      by_cases h2 : l2.segments.length < 1
      · rw [if_pos h2]
      · rw [if_neg h2]
        dsimp only []
        rw [if_neg hg]
        by_cases h3 : point_in_rect p2.pos ⟨l2.bbox.top_left, l2.bbox.bottom_right⟩
        · rw [if_pos h3]
          have hgd := laser_collision_loop_no_graze p2.pos (p2.velocity ≠ 0)
            ⟨p2.pos - p2.velocity, p2.pos⟩ (F2 ≥ l2.next_graze) hg l2.segments 42 0
          by_cases h4 : (laser_collision_loop p2.pos (p2.velocity ≠ 0)
              ⟨p2.pos - p2.velocity, p2.pos⟩ (F2 ≥ l2.next_graze) l2.segments 42 0).1 = true
          · rw [if_pos h4]
          · rw [if_neg h4]
            rw [hgd]
            rw [if_neg (by norm_num : ¬ (42 : ℝ) < 42)]
        · rw [if_neg h3]
    · rw [if_neg h1]

theorem sqrt_10000 : Real.sqrt 10000 = 100 := by
  rw [show (10000 : ℝ) = 100 ^ 2 by norm_num, Real.sqrt_sq (by norm_num : (0:ℝ) ≤ 100)]

def seg_c8 : LaserSegment := ⟨⟨0, 100⟩, ⟨10, 10⟩, ⟨0, 0⟩⟩

theorem ucap_c8_eval :
    ucapsule_dist_from_point (50 + 30 * Complex.I) (collision_capsule seg_c8) = 28 := by
  have hrad : max ((10:ℝ) * 0.5 - 4) 2 = 2 := by norm_num
  simp only [collision_capsule, seg_c8, ucapsule_dist_from_point, hrad]
  norm_num [cdot, ccross, cconj, cswap, cabs2, Complex.sub_re, Complex.sub_im,
    Complex.add_re, Complex.add_im, Complex.mul_re, Complex.mul_im,
    Complex.I_re, Complex.I_im, sqrt_10000]
  rw [abs_of_pos (show (0:ℝ) < 3/10 by norm_num)]
  norm_num

def laser_c8 : Laser :=
  ⟨0, 4, 100, 0, 1, 10, 1, 0, 0, true, laser_rule_linear 1,
   ⟨-1000 - 1000 * Complex.I, 1000 + 1000 * Complex.I⟩, [seg_c8]⟩

def player_c8 : Player := ⟨50 + 30 * Complex.I, 0⟩

theorem sqrt_900 : Real.sqrt 900 = 30 := by
  rw [show (900 : ℝ) = 30 ^ 2 by norm_num, Real.sqrt_sq (by norm_num : (0:ℝ) ≤ 30)]

theorem closest_factor_c8 :
    lineseg_closest_factor ⟨seg_c8.pos.a, seg_c8.pos.b⟩ (50 + 30 * Complex.I) = 1 / 2 := by
  simp only [lineseg_closest_factor, lineseg_closest_factor_impl, seg_c8]
  norm_num [cconj, cabs2, Complex.sub_re, Complex.sub_im, Complex.add_re, Complex.add_im,
    Complex.mul_re, Complex.mul_im, Complex.I_re, Complex.I_im, Complex.ext_iff]

theorem loop_c8_eval (moved graze : Prop) (motion : LineSegment)
    (hm : ¬ moved) (hg : graze) :
    laser_collision_loop (50 + 30 * Complex.I) moved motion graze [seg_c8] 42 0
      = (false, 28, 50 + 5 * Complex.I) := by
  simp only [laser_collision_loop]
  rw [if_neg (show ¬ (moved ∧ lineseg_lineseg_intersection motion
    ⟨seg_c8.pos.a, seg_c8.pos.b⟩) from fun hc => hm hc.1)]
  rw [ucap_c8_eval]
  rw [if_neg (show ¬ (28:ℝ) < 0 by norm_num)]
  rw [if_pos (show graze ∧ (28:ℝ) < 42 from ⟨hg, by norm_num⟩)]
  dsimp only []
  rw [closest_factor_c8]
  norm_num [clerp, lerpf, cnormalize, cabs, cabs2, seg_c8, Prod.ext_iff,
    Complex.ext_iff, Complex.sub_re, Complex.sub_im, Complex.add_re, Complex.add_im,
    Complex.mul_re, Complex.mul_im, Complex.I_re, Complex.I_im, Complex.div_re,
    Complex.div_im, Complex.normSq, sqrt_900]

theorem collision_c8_eval :
    (laser_collision laser_c8 player_c8 0).graze_event = some (50 + 5 * Complex.I) := by
  unfold laser_collision
  rw [if_pos (show laser_c8.collision_active = true from rfl)]
  rw [if_neg (show ¬ laser_c8.segments.length < 1 by
    rw [show laser_c8.segments = [seg_c8] from rfl]; norm_num)]
  dsimp only []
  rw [if_pos (show (0:ℤ) ≥ laser_c8.next_graze by
    rw [show laser_c8.next_graze = 0 from rfl])]
  rw [if_pos (show point_in_rect player_c8.pos
      ⟨laser_c8.bbox.top_left - ((42 : ℝ) : ℂ) * (1 + Complex.I),
       laser_c8.bbox.bottom_right + ((42 : ℝ) : ℂ) * (1 + Complex.I)⟩ by
    rw [show laser_c8.bbox = ⟨-1000 - 1000 * Complex.I, 1000 + 1000 * Complex.I⟩ from rfl]
    norm_num [point_in_rect, player_c8, Complex.sub_re, Complex.sub_im,
      Complex.add_re, Complex.add_im, Complex.mul_re, Complex.mul_im,
      Complex.I_re, Complex.I_im])]
  rw [show laser_c8.segments = [seg_c8] from rfl]
  rw [show player_c8.pos = 50 + 30 * Complex.I from rfl]
  rw [loop_c8_eval (player_c8.velocity ≠ 0)
    ((0:ℤ) ≥ laser_c8.next_graze)
    ⟨50 + 30 * Complex.I - player_c8.velocity, 50 + 30 * Complex.I⟩
    (fun h => h (show player_c8.velocity = 0 from rfl))
    (show (0:ℤ) ≥ laser_c8.next_graze by
      rw [show laser_c8.next_graze = 0 from rfl])]
  norm_num

/-- Witness for C8: a concrete graze fires at frame 0, setting the cooldown
to 4, and the pass at frame 1 with the updated laser produces no graze. -/
theorem c8_graze_cooldown_witness :
    (laser_collision laser_c8 player_c8 0).graze_event.isSome = true ∧
    (laser_collision ((laser_collision laser_c8 player_c8 0).laser) player_c8 1).graze_event
      = none :=
  ⟨by rw [collision_c8_eval]; rfl,
   (c8_graze_cooldown laser_c8 player_c8 0).2
     ((laser_collision laser_c8 player_c8 0).laser) player_c8 1
     ((c8_graze_cooldown laser_c8 player_c8 0).1 (by rw [collision_c8_eval]; rfl))
     (by norm_num)⟩

/-! ## C2: the generic trace walker (`laser_trace`, laser.c)

The walker is embedded with explicit fuel for its `while` loop and for the
recursion of `laser_trace_advance` (the C recursion is bounded, the theorems
hold for every fuel).  Each callback invocation is recorded in a ghost log
as `(returned value, tag)`, where the tag marks invocations made from the
final partial-step advance of a segment — the one call whose result the C
code discards (`laser_trace_advance(&st, v, len);` with no result check). -/

/-- The per-step sample handed to the trace callback (C `LaserTraceSample`). -/
structure LaserTraceSample where
  seg : LaserSegment
  segment_param : ℝ
  discontinuous : Bool
  pos : ℂ

/-- The walker state (C `LaserTraceState`), with the callback's mutable
userdata modelled as a state `σ`. -/
structure TraceSt (σ : Type) where
  p : ℂ
  accum : ℝ
  sample : LaserTraceSample
  inverse_seglen : ℝ
  user : σ

/-- Invoke the callback on the current sample (`laser_trace_dispatch`,
laser.c), recording the returned value and the call-site tag in the log. -/
def trace_dispatch {σ α : Type} (f : LaserTraceSample → σ → Option α × σ)
    (tag : Bool) (st : TraceSt σ) :
    Option α × TraceSt σ × List (Option α × Bool) :=
  let fr := f st.sample st.user
  (fr.1, ⟨st.p, st.accum, st.sample, st.inverse_seglen, fr.2⟩, [(fr.1, tag)])

/-- Advance along the current segment (`laser_trace_advance`, laser.c):
consume up to `step - accum` of the remaining length `l0`, dispatch when a
full step is accumulated, abort on a non-null result, and recurse on the
remaining length. -/
def laser_trace_advance {σ α : Type} (f : LaserTraceSample → σ → Option α × σ)
    (step : ℝ) (tag : Bool) :
    ℕ → TraceSt σ → ℂ → ℝ → Option α × TraceSt σ × List (Option α × Bool)
  | 0, st, _, _ => (none, st, [])
  | fuel + 1, st, v, l0 =>
    let l := min l0 (step - st.accum)
    let st1 : TraceSt σ :=
      ⟨st.p + v * (l : ℂ), st.accum + l,
       ⟨st.sample.seg, st.sample.segment_param + l * st.inverse_seglen,
        st.sample.discontinuous, st.sample.pos⟩,
       st.inverse_seglen, st.user⟩
    let d :=
      if st1.accum ≥ step then
        trace_dispatch f tag
          ⟨st1.p, st1.accum - step,
           ⟨st1.sample.seg, st1.sample.segment_param, st1.sample.discontinuous, st1.p⟩,
           st1.inverse_seglen, st1.user⟩
      else (none, st1, [])
    if d.1.isSome then d
    else if l0 - l > 0 then
      let r := laser_trace_advance f step tag fuel d.2.1 v (l0 - l)
      (r.1, r.2.1, d.2.2 ++ r.2.2)
    else (none, d.2.1, d.2.2)

/-- The `while(len >= pstep)` loop of `laser_trace` (laser.c): repeated
whole-step advances, aborting on a non-null result; returns the remaining
length along with the result, state and log. -/
def trace_seg_loop {σ α : Type} (f : LaserTraceSample → σ → Option α × σ)
    (step : ℝ) :
    ℕ → ℕ → TraceSt σ → ℂ → ℝ → Option α × TraceSt σ × List (Option α × Bool) × ℝ
  | 0, _, st, _, len => (none, st, [], len)
  | wfuel + 1, afuel, st, v, len =>
    if len ≥ step then
      let a := laser_trace_advance f step false afuel st v step
      if a.1.isSome then (a.1, a.2.1, a.2.2, len)
      else
        let r := trace_seg_loop f step wfuel afuel a.2.1 v (len - step)
        (r.1, r.2.1, a.2.2 ++ r.2.2.1, r.2.2.2)
    else (none, st, [], len)

/-- The discontinuity block of `laser_trace` (laser.c): when the previous
segment's endpoint does not match this segment's start, reset the walk
position and accumulator and dispatch a sample flagged `discontinuous`. -/
def trace_disc_dispatch {σ α : Type} (f : LaserTraceSample → σ → Option α × σ)
    (prev : Option ℂ) (s : LaserSegment) (inv : ℝ) (st0 : TraceSt σ) :
    Option α × TraceSt σ × List (Option α × Bool) :=
  if prev ≠ some s.pos.a then
    let r := trace_dispatch f false
      ⟨s.pos.a, 0, ⟨s, 0, true, s.pos.a⟩, inv, st0.user⟩
    (r.1,
     (⟨r.2.1.p, r.2.1.accum,
       ⟨r.2.1.sample.seg, r.2.1.sample.segment_param, false, r.2.1.sample.pos⟩,
       r.2.1.inverse_seglen, r.2.1.user⟩ : TraceSt σ),
     r.2.2)
  else (none, st0, ([] : List (Option α × Bool)))

/-- The per-segment walk of `laser_trace` (laser.c): undo the
canonicalization flip on discontinuity evidence, dispatch a discontinuity
sample when the chain breaks, run the whole-step loop, and make the final
partial-step advance — whose result the C code discards (the `tag := true`
call). -/
def laser_trace_segs {σ α : Type} (f : LaserTraceSample → σ → Option α × σ)
    (step : ℝ) (fuel : ℕ) :
    List LaserSegment → Option ℂ → TraceSt σ →
      Option α × TraceSt σ × List (Option α × Bool)
  | [], _, st => (none, st, [])
  | seg :: rest, prev, st =>
    let s := if prev ≠ some seg.pos.a ∧ prev = some seg.pos.b then laserseg_flip seg else seg
    let len := cabs (s.pos.b - s.pos.a)
    let inv := 1 / len
    let v := (s.pos.b - s.pos.a) * (inv : ℂ)
    let st0 : TraceSt σ :=
      ⟨st.p, st.accum, ⟨s, 0, st.sample.discontinuous, st.sample.pos⟩, inv, st.user⟩
    let d := trace_disc_dispatch f prev s inv st0
    if d.1.isSome then d
    else
      let w := trace_seg_loop f step fuel fuel d.2.1 v len
      if w.1.isSome then (w.1, w.2.1, d.2.2 ++ w.2.2.1)
      else
        let a := laser_trace_advance f step true fuel w.2.1 v w.2.2.2
        let t := laser_trace_segs f step fuel rest (some s.pos.b) a.2.1
        (t.1, t.2.1, d.2.2 ++ w.2.2.1 ++ a.2.2 ++ t.2.2)

/-- The resumable fixed-step walk over a laser's segment chain
(`laser_trace`, laser.c), returning the result and the ghost invocation
log. -/
def laser_trace {σ α : Type} (f : LaserTraceSample → σ → Option α × σ)
    (step : ℝ) (fuel : ℕ) (segments : List LaserSegment) (u0 : σ) :
    Option α × List (Option α × Bool) :=
  match segments with
  | [] => (none, [])
  | seg0 :: _ =>
    let r := laser_trace_segs f step fuel segments none
      ⟨seg0.pos.a, 0, ⟨seg0, 0, false, seg0.pos.a⟩, 0, u0⟩
    (r.1, r.2.2)

/-- The abort discipline C2 claims for the walker: a non-null callback
return is the last invocation, and the walk returns that value; otherwise
every invocation returned null. -/
def AbortsCleanly {α : Type} (r : Option α) (log : List (Option α)) : Prop :=
  match r with
  | some x => ∃ pre, log = pre ++ [some x] ∧ ∀ y ∈ pre, y = none
  | none => ∀ y ∈ log, y = none

/-- A log none of whose untagged (result-checked) invocations returned a
non-null value. -/
def BenignLog {α : Type} (log : List (Option α × Bool)) : Prop :=
  ∀ e ∈ log, e.2 = false → e.1 = none

/-- The provable abort discipline: a non-null return from any invocation
whose result the code checks (untagged) is the last invocation overall and
becomes the walk's result; invocations from a segment's final partial-step
advance (tagged) are exempt, because their result is discarded. -/
def AbortsOutsideFinal {α : Type} (r : Option α) (log : List (Option α × Bool)) : Prop :=
  match r with
  | some x => ∃ pre, log = pre ++ [(some x, false)] ∧ BenignLog pre
  | none => BenignLog log

end

noncomputable section

theorem benign_nil {α : Type} : BenignLog ([] : List (Option α × Bool)) :=
  fun e he => absurd he (List.not_mem_nil e)

theorem benign_append {α : Type} {l1 l2 : List (Option α × Bool)}
    (h1 : BenignLog l1) (h2 : BenignLog l2) : BenignLog (l1 ++ l2) := by
  intro e he ht
  rcases List.mem_append.mp he with h | h
  · exact h1 e h ht
  · exact h2 e h ht

theorem benign_of_tagged {α : Type} {l : List (Option α × Bool)}
    (h : ∀ e ∈ l, e.2 = true) : BenignLog l := by
  intro e he ht
  rw [h e he] at ht
  exact absurd ht (by simp)

theorem aborts_prepend {α : Type} {r : Option α} {l0 log : List (Option α × Bool)}
    (hb : BenignLog l0) (h : AbortsOutsideFinal r log) :
    AbortsOutsideFinal r (l0 ++ log) := by
  cases r with
  | none => exact benign_append hb h
  | some x =>
    obtain ⟨pre, hpre, hb2⟩ := h
    exact ⟨l0 ++ pre, by rw [hpre, List.append_assoc], benign_append hb hb2⟩

theorem laser_trace_advance_tagged {σ α : Type} (f : LaserTraceSample → σ → Option α × σ)
    (step : ℝ) :
    ∀ (fuel : ℕ) (st : TraceSt σ) (v : ℂ) (l0 : ℝ),
      ∀ e ∈ (laser_trace_advance f step true fuel st v l0).2.2, e.2 = true := by
  intro fuel
  induction fuel with
  | zero => intro st v l0 e he; simp [laser_trace_advance] at he
  | succ n ih =>
    intro st v l0 e he
    simp only [laser_trace_advance, trace_dispatch] at he
    split_ifs at he <;>
      simp only [List.mem_append, List.mem_singleton, List.mem_cons, List.not_mem_nil,
        List.nil_append, or_false, false_or] at he
    all_goals
      first
      | (rcases he with he | he
         · subst he; rfl
         · exact ih _ _ _ e he)
      | (subst he; rfl)
      | exact ih _ _ _ e he

theorem laser_trace_advance_aborts {σ α : Type} (f : LaserTraceSample → σ → Option α × σ)
    (step : ℝ) :
    ∀ (fuel : ℕ) (st : TraceSt σ) (v : ℂ) (l0 : ℝ),
      AbortsOutsideFinal (laser_trace_advance f step false fuel st v l0).1
        (laser_trace_advance f step false fuel st v l0).2.2 := by
  intro fuel
  induction fuel with
  | zero =>
    intro st v l0
    simp only [laser_trace_advance]
    exact benign_nil
  | succ n ih =>
    intro st v l0
    simp only [laser_trace_advance, trace_dispatch]
    split_ifs with h1 h2 h3 h4 h5
    · obtain ⟨x, hx⟩ := Option.isSome_iff_exists.mp h2
      rw [hx]
      exact ⟨[], by simp, benign_nil⟩
    · have hn := Option.not_isSome_iff_eq_none.mp h2
      rw [hn]
      exact aborts_prepend
        (by intro e he _; simp only [hn, List.mem_singleton] at he; rw [he])
        (ih _ _ _)
    · have hn := Option.not_isSome_iff_eq_none.mp h2
      rw [hn]
      intro e he _
      simp only [hn, List.mem_singleton] at he
      rw [he]
    · simp at h4
    · exact aborts_prepend benign_nil (ih _ _ _)
    · exact benign_nil

theorem trace_seg_loop_aborts {σ α : Type} (f : LaserTraceSample → σ → Option α × σ)
    (step : ℝ) :
    ∀ (wfuel afuel : ℕ) (st : TraceSt σ) (v : ℂ) (len : ℝ),
      AbortsOutsideFinal (trace_seg_loop f step wfuel afuel st v len).1
        (trace_seg_loop f step wfuel afuel st v len).2.2.1 := by
  intro wfuel
  induction wfuel with
  | zero =>
    intro afuel st v len
    simp only [trace_seg_loop]
    exact benign_nil
  | succ n ih =>
    intro afuel st v len
    simp only [trace_seg_loop]
    split_ifs with h1 h2
    · exact laser_trace_advance_aborts f step afuel st v step
    · have hn := Option.not_isSome_iff_eq_none.mp h2
      have hb : BenignLog (laser_trace_advance f step false afuel st v step).2.2 := by
        have h := laser_trace_advance_aborts f step afuel st v step
        rw [hn] at h
        exact h
      exact aborts_prepend hb (ih _ _ _ _)
    · exact benign_nil

theorem trace_disc_dispatch_aborts {σ α : Type} (f : LaserTraceSample → σ → Option α × σ)
    (prev : Option ℂ) (s : LaserSegment) (inv : ℝ) (st0 : TraceSt σ) :
    AbortsOutsideFinal (trace_disc_dispatch f prev s inv st0).1
      (trace_disc_dispatch f prev s inv st0).2.2 := by
  simp only [trace_disc_dispatch, trace_dispatch]
  split_ifs with h1
  · rcases hfv : (f (⟨s, 0, true, s.pos.a⟩ : LaserTraceSample) st0.user).1 with _ | x
    · intro e he _
      simp only [List.mem_singleton] at he
      rw [he]
    · exact ⟨[], by simp, benign_nil⟩
  · exact benign_nil

theorem trace_disc_dispatch_benign {σ α : Type} {f : LaserTraceSample → σ → Option α × σ}
    {prev : Option ℂ} {s : LaserSegment} {inv : ℝ} {st0 : TraceSt σ}
    (hd : (trace_disc_dispatch f prev s inv st0).1 = none) :
    BenignLog (trace_disc_dispatch f prev s inv st0).2.2 := by
  have h := trace_disc_dispatch_aborts f prev s inv st0
  rw [hd] at h
  exact h

theorem trace_seg_loop_benign {σ α : Type} {f : LaserTraceSample → σ → Option α × σ}
    {step : ℝ} {wfuel afuel : ℕ} {st : TraceSt σ} {v : ℂ} {len : ℝ}
    (hw : (trace_seg_loop f step wfuel afuel st v len).1 = none) :
    BenignLog (trace_seg_loop f step wfuel afuel st v len).2.2.1 := by
  have h := trace_seg_loop_aborts f step wfuel afuel st v len
  rw [hw] at h
  exact h

theorem laser_trace_segs_aborts {σ α : Type} (f : LaserTraceSample → σ → Option α × σ)
    (step : ℝ) (fuel : ℕ) :
    ∀ (segments : List LaserSegment) (prev : Option ℂ) (st : TraceSt σ),
      AbortsOutsideFinal (laser_trace_segs f step fuel segments prev st).1
        (laser_trace_segs f step fuel segments prev st).2.2 := by
  intro segments
  induction segments with
  | nil =>
    intro prev st
    simp only [laser_trace_segs]
    exact benign_nil
  | cons seg rest ih =>
    intro prev st
    simp only [laser_trace_segs]
    split_ifs
    all_goals first
      | -- the discontinuity dispatch aborted
        (exact trace_disc_dispatch_aborts f _ _ _ _)
      | -- the while loop aborted
        (rename_i hd hw
         exact aborts_prepend
           (trace_disc_dispatch_benign (Option.not_isSome_iff_eq_none.mp hd))
           (trace_seg_loop_aborts f step fuel fuel _ _ _))
      | -- fall through to the next segment
        (rename_i hd hw
         exact aborts_prepend
           (benign_append
             (benign_append
               (trace_disc_dispatch_benign (Option.not_isSome_iff_eq_none.mp hd))
               (trace_seg_loop_benign (Option.not_isSome_iff_eq_none.mp hw)))
             (benign_of_tagged (laser_trace_advance_tagged f step fuel _ _ _)))
           (ih _ _))

/-- C2 (amended): in every `laser_trace` walk, a non-null value returned by
any callback invocation whose result the code checks is the final invocation
of the walk, untagged, and becomes `laser_trace`'s return value; all earlier
checked invocations returned null.  Invocations made during a segment's
final partial-step advance are exempt: the C code discards that advance's
result, so a non-null value returned there neither stops the walk nor
becomes its result. -/
theorem c2_trace_abort_amended {σ α : Type} (f : LaserTraceSample → σ → Option α × σ)
    (step : ℝ) (fuel : ℕ) (segments : List LaserSegment) (u0 : σ) :
    AbortsOutsideFinal (laser_trace f step fuel segments u0).1
      (laser_trace f step fuel segments u0).2 := by
  unfold laser_trace
  cases segments with
  | nil => exact benign_nil
  | cons seg0 rest =>
    exact laser_trace_segs_aborts f step fuel (seg0 :: rest) none _
end

noncomputable section

theorem sqrt_nine_fourths : Real.sqrt (9 / 4) = 3 / 2 := by
  rw [show (9 / 4 : ℝ) = (3 / 2) ^ 2 by norm_num,
      Real.sqrt_sq (by norm_num : (0:ℝ) ≤ 3 / 2)]

def segs_c2 : List LaserSegment :=
  [⟨⟨0, 1⟩, ⟨0, 0⟩, ⟨0, 0⟩⟩, ⟨⟨1, 5/2⟩, ⟨0, 0⟩, ⟨0, 0⟩⟩]

def f_c2 : LaserTraceSample → Unit → Option Unit × Unit :=
  fun s _ => (if s.pos = 2 then some () else none, ())

theorem sqrt_nine : Real.sqrt 9 = 3 := by
  rw [show (9 : ℝ) = 3 ^ 2 by norm_num, Real.sqrt_sq (by norm_num : (0:ℝ) ≤ 3)]

theorem sqrt_four : Real.sqrt 4 = 2 := by
  rw [show (4 : ℝ) = 2 ^ 2 by norm_num, Real.sqrt_sq (by norm_num : (0:ℝ) ≤ 2)]

set_option maxHeartbeats 1000000 in
theorem trace_c2_eval :
    laser_trace f_c2 2 1 segs_c2 ()
      = (none, [(none, false), (some (), true)]) := by
  simp only [laser_trace, segs_c2, laser_trace_segs, trace_disc_dispatch, trace_dispatch,
    f_c2, laserseg_flip, trace_seg_loop, laser_trace_advance]
  simp [cabs, cabs2, Complex.ext_iff, sqrt_nine_fourths, min_def, Real.sqrt_one]
  norm_num [sqrt_nine, sqrt_four, Complex.ext_iff, min_def]
/-- C2 counterexample: a two-segment trace in which the user callback
returns non-null only at the dispatch performed by the final partial-step
advance of the last segment; that result is discarded, so the trace
neither stops there nor returns it, refuting the claim that a non-null
return always aborts the walk and becomes the result. -/
theorem c2_trace_abort_counterexample :
    ¬ AbortsCleanly (laser_trace f_c2 2 1 segs_c2 ()).1
        ((laser_trace f_c2 2 1 segs_c2 ()).2.map Prod.fst) := by
  rw [trace_c2_eval]
  simp [AbortsCleanly]
end
